import Mathlib

set_option maxHeartbeats 1000000

/-!
Verification of the DSMC (Direct Simulation Monte Carlo) simulation in
src/dsmc.py (class DSMCSimulation).  The numerical code is embedded over
the real numbers; every random draw consumed by the code
(np.random.rand, np.random.beta, the two uniforms inside
random_unit_vector, the drawn particle pairs) is passed explicitly as a
parameter, so each code path is a pure function of the state and of the
draws.  Machine floats are modelled by exact reals.
-/

noncomputable section

namespace DSMC

/-- Three-component real vector, modelling a numpy array of shape (3,)
(positions, velocities, and the result of random_unit_vector in src/dsmc.py). -/
@[ext]
structure Vec3 where
  x : ℝ
  y : ℝ
  z : ℝ

instance : Add Vec3 :=
  ⟨fun a b => ⟨a.x + b.x, a.y + b.y, a.z + b.z⟩⟩

instance : Sub Vec3 :=
  ⟨fun a b => ⟨a.x - b.x, a.y - b.y, a.z - b.z⟩⟩

instance : SMul ℝ Vec3 :=
  ⟨fun c a => ⟨c * a.x, c * a.y, c * a.z⟩⟩

@[simp] theorem add_x (a b : Vec3) : (a + b).x = a.x + b.x := rfl

@[simp] theorem add_y (a b : Vec3) : (a + b).y = a.y + b.y := rfl

@[simp] theorem add_z (a b : Vec3) : (a + b).z = a.z + b.z := rfl

@[simp] theorem sub_x (a b : Vec3) : (a - b).x = a.x - b.x := rfl

@[simp] theorem sub_y (a b : Vec3) : (a - b).y = a.y - b.y := rfl

@[simp] theorem sub_z (a b : Vec3) : (a - b).z = a.z - b.z := rfl

@[simp] theorem smul_x (c : ℝ) (a : Vec3) : (c • a).x = c * a.x := rfl

@[simp] theorem smul_y (c : ℝ) (a : Vec3) : (c • a).y = c * a.y := rfl

@[simp] theorem smul_z (c : ℝ) (a : Vec3) : (c • a).z = c * a.z := rfl

/-- np.sum(v**2) for a 3-vector. -/
def Vec3.normSq (v : Vec3) : ℝ := v.x ^ 2 + v.y ^ 2 + v.z ^ 2

/-- np.linalg.norm for a 3-vector. -/
def Vec3.norm (v : Vec3) : ℝ := Real.sqrt v.normSq

/-- Boltzmann constant, src/dsmc.py line 29. -/
def k_B : ℝ := 1.38e-23

/-- Mass of a hydrogen molecule, src/dsmc.py line 30. -/
def m_H2 : ℝ := 3.34e-26

/-- Particle density, src/dsmc.py line 31. -/
def density : ℝ := 0.9

/-- The constructor arguments of DSMCSimulation.__init__ (src/dsmc.py line 16).
The mdn_model capability is modelled as an optional prediction function from
the three input features to the two raw outputs (model.predict on a batch of
one, src/dsmc.py line 111). -/
structure DSMCConfig where
  n_particles : ℤ
  n_steps : ℤ
  time_step_arg : ℝ
  use_mdn : Bool
  mdn_model : Option ((ℝ × ℝ × ℝ) → ℝ × ℝ)
  T_tr_initial : ℝ
  T_rot_initial : ℝ
  Z_r : ℝ
  domain_size : ℝ
  n_cells : ℤ
  sigma_collision : ℝ

/-- p_inelastic = 1 - 1/Z_r, src/dsmc.py line 23. -/
def p_inelastic (cfg : DSMCConfig) : ℝ := 1 - 1 / cfg.Z_r

/-- v_init = sqrt(3*k_B*T_tr_initial/m_H2), src/dsmc.py line 34. -/
def v_init (cfg : DSMCConfig) : ℝ := Real.sqrt (3 * k_B * cfg.T_tr_initial / m_H2)

/-- self.time_step as assigned on src/dsmc.py line 36.  The constructor
argument time_step (modelled as the field time_step_arg) is unconditionally
overwritten by this derived value. -/
def time_step (cfg : DSMCConfig) : ℝ :=
  0.2 * (cfg.domain_size / (cfg.n_cells : ℝ)) / v_init cfg

/-- eff_num, src/dsmc.py line 38. -/
def eff_num (cfg : DSMCConfig) : ℝ :=
  density / m_H2 * cfg.domain_size ^ 3 / (cfg.n_particles : ℝ)

/-- coeff, src/dsmc.py line 40. -/
def coeff (cfg : DSMCConfig) : ℝ :=
  0.5 * eff_num cfg * Real.pi * cfg.sigma_collision ^ 2 * time_step cfg /
    (cfg.domain_size ^ 3 / (cfg.n_cells : ℝ))

/-- cell_size = domain_size / n_cells, src/dsmc.py line 53. -/
def cell_size (cfg : DSMCConfig) : ℝ := cfg.domain_size / (cfg.n_cells : ℝ)

/-- Initial per-particle rotational energy, src/dsmc.py line 49:
0.5 * k_B * T_rot_initial for every particle. -/
def rot_energy_init (cfg : DSMCConfig) : ℕ → ℝ := fun _ => 0.5 * k_B * cfg.T_rot_initial

/-- The mutable per-run state of DSMCSimulation: the particle arrays
(positions, velocities, rotational_energy, src/dsmc.py lines 47-49) and the
three collision counters (lines 60-62).  Arrays are modelled as functions
from the particle index. -/
structure DSMCState where
  positions : ℕ → Vec3
  velocities : ℕ → Vec3
  rotational_energy : ℕ → ℝ
  elastic_collisions : ℕ
  inelastic_collisions : ℕ
  rejected_collisions : ℕ

/-- The random draws consumed by one call of perform_collision
(src/dsmc.py lines 121-180): the acceptance uniform (line 129), the
elastic/inelastic uniform (line 134), the two uniforms feeding
random_unit_vector (lines 186-187), and the Beta(1.5, 1) draw (line 159). -/
structure CollisionDraws where
  u_accept : ℝ
  u_type : ℝ
  u_dir1 : ℝ
  u_dir2 : ℝ
  beta_frac : ℝ

/-- random_unit_vector, src/dsmc.py lines 184-191, as a function of the two
uniform draws: theta = arccos(1 - 2*u1), phi = 2*pi*u2, returning
(sin theta * cos phi, sin theta * sin phi, cos theta). -/
def random_unit_vector (u1 u2 : ℝ) : Vec3 :=
  ⟨Real.sin (Real.arccos (1 - 2 * u1)) * Real.cos (2 * Real.pi * u2),
   Real.sin (Real.arccos (1 - 2 * u1)) * Real.sin (2 * Real.pi * u2),
   Real.cos (Real.arccos (1 - 2 * u1))⟩

/-- sigmoid, src/dsmc.py lines 93-95. -/
def sigmoid (x : ℝ) : ℝ := 1 / (1 + Real.exp (-x))

/-- np.clip(x, lo, hi). -/
def npClip (x lo hi : ℝ) : ℝ := max lo (min x hi)

/-- inv_sigmoid with clamping, src/dsmc.py lines 97-101. -/
def inv_sigmoid (x : ℝ) : ℝ :=
  Real.log (npClip x 1e-9 (1 - 1e-9) / (1 - npClip x 1e-9 (1 - 1e-9)))

/-- mdn_energy_exchange, src/dsmc.py lines 104-119: feed the three features
to the model and push the two raw outputs through the forward sigmoid.
Note that this operation is never invoked from perform_collision in the
source. -/
def mdn_energy_exchange (model : (ℝ × ℝ × ℝ) → ℝ × ℝ) (pre : ℝ × ℝ × ℝ) : ℝ × ℝ :=
  (sigmoid (model pre).1, sigmoid (model pre).2)

/-- CM_velocity = 0.5 * (velocities[idx1] + velocities[idx2]),
src/dsmc.py line 125. -/
def CM_of (sim : DSMCState) (idx1 idx2 : ℕ) : Vec3 :=
  (0.5 : ℝ) • (sim.velocities idx1 + sim.velocities idx2)

/-- E_trans_pre, src/dsmc.py line 150: translational energy of the pair in
the centre-of-mass frame. -/
def E_trans_pre_of (sim : DSMCState) (idx1 idx2 : ℕ) : ℝ :=
  0.5 * m_H2 *
    ((sim.velocities idx1 - CM_of sim idx1 idx2).normSq +
     (sim.velocities idx2 - CM_of sim idx1 idx2).normSq)

/-- E_total_pre = E_trans_pre + E_rot_pre, src/dsmc.py lines 151-152. -/
def E_total_pre_of (sim : DSMCState) (idx1 idx2 : ℕ) : ℝ :=
  E_trans_pre_of sim idx1 idx2 +
    (sim.rotational_energy idx1 + sim.rotational_energy idx2)

/-- The recomputed post-collision total energy of the energy-conservation
check, src/dsmc.py lines 176-178: translational part taken relative to the
pre-collision CM_velocity plus the updated rotational energies. -/
def E_total_post_of (simPre simPost : DSMCState) (idx1 idx2 : ℕ) : ℝ :=
  0.5 * m_H2 *
    ((simPost.velocities idx1 - CM_of simPre idx1 idx2).normSq +
     (simPost.velocities idx2 - CM_of simPre idx1 idx2).normSq) +
    (simPost.rotational_energy idx1 + simPost.rotational_energy idx2)

/-- The condition of np.isclose(a, b, atol) with numpy's default
rtol = 1e-5, used by the assertion on src/dsmc.py line 180. -/
def np_isclose (a b atol rtol : ℝ) : Prop := |a - b| ≤ atol + rtol * |b|

/-- The velocity-array update shared by the elastic and inelastic branches,
src/dsmc.py lines 142-143 and 172-173: velocities[idx1] = CM + 0.5*w and
velocities[idx2] = CM - 0.5*w for the new relative velocity w, assigned in
that order. -/
def pairVelocityUpdate (sim : DSMCState) (idx1 idx2 : ℕ) (w : Vec3) : ℕ → Vec3 :=
  Function.update
    (Function.update sim.velocities idx1 (CM_of sim idx1 idx2 + (0.5 : ℝ) • w)) idx2
    (CM_of sim idx1 idx2 - (0.5 : ℝ) • w)

/-- perform_collision, src/dsmc.py lines 121-180.  Branch 1 (line 129):
reject when the acceptance uniform exceeds |v_rel|/max_rel_velocity.
Branch 2 (lines 134-144): elastic - isotropic scattering preserving the
relative speed.  Branch 3 (lines 146-180): inelastic Larsen-Borgnakke -
E_trans_post = E_total_pre * beta_draw, both rotational slots receive
(E_total_pre - E_trans_post)/2, and the new relative speed is
sqrt(4*E_trans_post/m_H2).  The concluding assert (line 180) is a pure
check of already-computed state; see the C1 theorem which proves its
condition always holds. -/
def performCollision (cfg : DSMCConfig) (sim : DSMCState) (idx1 idx2 : ℕ)
    (max_rel_velocity : ℝ) (d : CollisionDraws) : DSMCState :=
  if (sim.velocities idx1 - sim.velocities idx2).norm / max_rel_velocity < d.u_accept then
    { sim with rejected_collisions := sim.rejected_collisions + 1 }
  else if p_inelastic cfg < d.u_type then
    { sim with
      elastic_collisions := sim.elastic_collisions + 1
      velocities :=
        pairVelocityUpdate sim idx1 idx2
          ((sim.velocities idx1 - sim.velocities idx2).norm •
            random_unit_vector d.u_dir1 d.u_dir2) }
  else
    { sim with
      inelastic_collisions := sim.inelastic_collisions + 1
      rotational_energy :=
        Function.update (Function.update sim.rotational_energy idx1
          ((E_total_pre_of sim idx1 idx2 - E_total_pre_of sim idx1 idx2 * d.beta_frac) / 2)) idx2
          ((E_total_pre_of sim idx1 idx2 - E_total_pre_of sim idx1 idx2 * d.beta_frac) / 2)
      velocities :=
        pairVelocityUpdate sim idx1 idx2
          (Real.sqrt (4 * (E_total_pre_of sim idx1 idx2 * d.beta_frac) / m_H2) •
            random_unit_vector d.u_dir1 d.u_dir2) }

/-- np.mod(x, L) on real scalars: x - L*floor(x/L). -/
def npMod (x L : ℝ) : ℝ := x - L * (⌊x / L⌋ : ℤ)

/-- Component-wise np.mod of a 3-vector. -/
def vecMod (v : Vec3) (L : ℝ) : Vec3 := ⟨npMod v.x L, npMod v.y L, npMod v.z L⟩

/-- update_positions, src/dsmc.py lines 220-225: positions += velocities *
time_step, then np.mod(positions, domain_size). -/
def update_positions (cfg : DSMCConfig) (sim : DSMCState) : DSMCState :=
  { sim with
    positions := fun i =>
      vecMod (sim.positions i + time_step cfg • sim.velocities i) cfg.domain_size }

/-- Each coordinate lies in the half-open box [0, L)^3. -/
def inDomain (L : ℝ) (v : Vec3) : Prop :=
  (0 ≤ v.x ∧ v.x < L) ∧ (0 ≤ v.y ∧ v.y < L) ∧ (0 ≤ v.z ∧ v.z < L)

/-- The integer cell coordinate of one axis, src/dsmc.py line 85:
(position // cell_size).astype(int).  Floor division of nonneg-by-positive
floats is the mathematical floor, and astype(int) of an integral float is
exact. -/
def cell_index (cellSize : ℝ) (xc : ℝ) : ℤ := ⌊xc / cellSize⌋

/-- The 3-D cell coordinates of a particle, src/dsmc.py lines 85-86. -/
def cell_indices (cfg : DSMCConfig) (p : Vec3) : ℤ × ℤ × ℤ :=
  (cell_index (cell_size cfg) p.x, cell_index (cell_size cfg) p.y,
   cell_index (cell_size cfg) p.z)

/-- Python int(x): truncation toward zero. -/
def pythonInt (x : ℝ) : ℤ := if 0 ≤ x then ⌊x⌋ else ⌈x⌉

/-- n_candidate_pairs, src/dsmc.py line 261:
int(coeff * n * (n - 1) * max_rel_velocity), where coeffVal stands for the
stored constant self.coeff. -/
def n_candidate_pairs (coeffVal : ℝ) (n : ℕ) (maxRel : ℝ) : ℤ :=
  pythonInt (coeffVal * (n : ℝ) * ((n : ℝ) - 1) * maxRel)

/-- The candidate-collision loop for one cell, src/dsmc.py lines 266-268:
perform n_candidate_pairs collision attempts, each on a freshly drawn pair
(pairDraw k) with fresh uniform/beta draws (colDraw k).  The second
component counts the perform_collision attempts actually made. -/
def cell_collision_attempts (cfg : DSMCConfig) (coeffVal : ℝ) (sim : DSMCState)
    (n : ℕ) (maxRel : ℝ) (pairDraw : ℕ → ℕ × ℕ) (colDraw : ℕ → CollisionDraws) :
    DSMCState × ℕ :=
  (List.range (n_candidate_pairs coeffVal n maxRel).toNat).foldl
    (fun acc k =>
      (performCollision cfg acc.1 (pairDraw k).1 (pairDraw k).2 maxRel (colDraw k),
       acc.2 + 1))
    (sim, 0)

/-- DSMCSimulation.__init__, src/dsmc.py lines 16-62, as a fallible
construction.  Python raises at exactly these points, in this order:
1/Z_r (line 23, ZeroDivisionError when Z_r = 0); domain_size/n_cells
(line 36, n_cells = 0); division by v_init (line 36, zero thermal speed;
in the model Real.sqrt of a nonpositive argument is 0, while Python would
produce nan for a negative temperature and only raise for T = 0);
division by n_particles (line 38, n_particles = 0); division by
domain_size**3/n_cells (line 40, domain_size = 0); and the array
allocations (lines 47-49, ValueError for negative n_particles).  No other
constructor argument is validated.  posU and velG are the raw uniform and
standard-normal draws of lines 71 and 67. -/
def dsmcInit? (cfg : DSMCConfig) (posU velG : ℕ → Vec3) : Option DSMCState :=
  if cfg.Z_r = 0 then none
  else if cfg.n_cells = 0 then none
  else if v_init cfg = 0 then none
  else if cfg.n_particles = 0 then none
  else if cfg.domain_size ^ 3 / (cfg.n_cells : ℝ) = 0 then none
  else if cfg.n_particles < 0 then none
  else some
    { positions := fun i => cfg.domain_size • posU i
      velocities := fun i => Real.sqrt (k_B * cfg.T_tr_initial / m_H2) • velG i
      rotational_energy := rot_energy_init cfg
      elastic_collisions := 0
      inelastic_collisions := 0
      rejected_collisions := 0 }

/-- The configuration of the __main__ invocation of src/dsmc.py
(lines 337-384) with the CLI defaults: n_particles=50000, n_steps=1000,
time_step=1e-6, no MDN, and the class defaults for the physics. -/
def mainConfig : DSMCConfig :=
  { n_particles := 50000
    n_steps := 1000
    time_step_arg := 1e-6
    use_mdn := false
    mdn_model := none
    T_tr_initial := 380
    T_rot_initial := 180
    Z_r := 245
    domain_size := 6.4e-4
    n_cells := 10
    sigma_collision := 2.92e-10 }

/-- A configuration that is invalid according to the specification's
ConfigurationError taxonomy on every count it lists that the constructor
could see: non-positive n_steps, Z_r not exceeding 1, a negative
temperature, a non-positive cross-section, and use_mdn set without a
surrogate model. -/
def badCfg : DSMCConfig :=
  { mainConfig with
    n_steps := -5
    Z_r := 1
    T_rot_initial := -10
    sigma_collision := -1
    use_mdn := true
    mdn_model := none }

/-- Another invalid configuration (zero steps, non-positive rotational
temperature). -/
def oddCfg : DSMCConfig :=
  { mainConfig with n_steps := 0, T_rot_initial := -1 }

/-- The zero vector. -/
def vzero : Vec3 := ⟨0, 0, 0⟩

/-- A concrete particle state used to instantiate the theorems: all
particles at rest at the origin with zero rotational energy. -/
def simW : DSMCState :=
  { positions := fun _ => vzero
    velocities := fun _ => vzero
    rotational_energy := fun _ => 0
    elastic_collisions := 0
    inelastic_collisions := 0
    rejected_collisions := 0 }

/-- Concrete draws taking the accept branch and then the inelastic branch. -/
def drawsA : CollisionDraws :=
  { u_accept := 0, u_type := 0, u_dir1 := 0, u_dir2 := 0, beta_frac := 0 }

/-- Concrete draws taking the accept branch and then the elastic branch. -/
def drawsB : CollisionDraws :=
  { u_accept := 0, u_type := 1, u_dir1 := 0, u_dir2 := 0, beta_frac := 0 }

theorem m_H2_pos : (0 : ℝ) < m_H2 := by norm_num [m_H2]

theorem k_B_pos : (0 : ℝ) < k_B := by norm_num [k_B]

theorem Vec3.normSq_nonneg (v : Vec3) : 0 ≤ v.normSq := by
  have := sq_nonneg v.x
  have := sq_nonneg v.y
  have := sq_nonneg v.z
  simp only [Vec3.normSq]
  linarith

theorem Vec3.norm_nonneg (v : Vec3) : 0 ≤ v.norm := Real.sqrt_nonneg _

theorem Vec3.normSq_smul (c : ℝ) (v : Vec3) : (c • v).normSq = c ^ 2 * v.normSq := by
  simp only [Vec3.normSq, smul_x, smul_y, smul_z]
  ring

theorem Vec3.norm_smul (c : ℝ) (v : Vec3) : (c • v).norm = |c| * v.norm := by
  rw [Vec3.norm, Vec3.normSq_smul, Real.sqrt_mul (sq_nonneg c), Real.sqrt_sq_eq_abs, Vec3.norm]

theorem random_unit_vector_normSq (u1 u2 : ℝ) :
    (random_unit_vector u1 u2).normSq = 1 := by
  have h1 := Real.sin_sq_add_cos_sq (2 * Real.pi * u2)
  have h2 := Real.sin_sq_add_cos_sq (Real.arccos (1 - 2 * u1))
  simp only [random_unit_vector, Vec3.normSq]
  nlinarith [h1, h2]

theorem random_unit_vector_norm (u1 u2 : ℝ) :
    (random_unit_vector u1 u2).norm = 1 := by
  rw [Vec3.norm, random_unit_vector_normSq, Real.sqrt_one]

theorem Vec3.normSq_add_sub (c h : Vec3) : ((c + h) - c).normSq = h.normSq := by
  simp only [Vec3.normSq, sub_x, sub_y, sub_z, add_x, add_y, add_z]
  ring

theorem Vec3.normSq_sub_sub (c h : Vec3) : ((c - h) - c).normSq = h.normSq := by
  simp only [Vec3.normSq, sub_x, sub_y, sub_z]
  ring

theorem pairVelocityUpdate_left (sim : DSMCState) (idx1 idx2 : ℕ) (w : Vec3)
    (h : idx1 ≠ idx2) :
    pairVelocityUpdate sim idx1 idx2 w idx1 = CM_of sim idx1 idx2 + (0.5 : ℝ) • w := by
  rw [pairVelocityUpdate, Function.update_noteq h, Function.update_same]

theorem pairVelocityUpdate_right (sim : DSMCState) (idx1 idx2 : ℕ) (w : Vec3) :
    pairVelocityUpdate sim idx1 idx2 w idx2 = CM_of sim idx1 idx2 - (0.5 : ℝ) • w := by
  rw [pairVelocityUpdate, Function.update_same]

theorem performCollision_of_rejected (cfg : DSMCConfig) (sim : DSMCState)
    (idx1 idx2 : ℕ) (maxRel : ℝ) (d : CollisionDraws)
    (h : (sim.velocities idx1 - sim.velocities idx2).norm / maxRel < d.u_accept) :
    performCollision cfg sim idx1 idx2 maxRel d =
      { sim with rejected_collisions := sim.rejected_collisions + 1 } := by
  unfold performCollision
  rw [if_pos h]

theorem performCollision_of_elastic (cfg : DSMCConfig) (sim : DSMCState)
    (idx1 idx2 : ℕ) (maxRel : ℝ) (d : CollisionDraws)
    (h1 : ¬((sim.velocities idx1 - sim.velocities idx2).norm / maxRel < d.u_accept))
    (h2 : p_inelastic cfg < d.u_type) :
    performCollision cfg sim idx1 idx2 maxRel d =
      { sim with
        elastic_collisions := sim.elastic_collisions + 1
        velocities :=
          pairVelocityUpdate sim idx1 idx2
            ((sim.velocities idx1 - sim.velocities idx2).norm •
              random_unit_vector d.u_dir1 d.u_dir2) } := by
  unfold performCollision
  rw [if_neg h1, if_pos h2]

theorem performCollision_of_inelastic (cfg : DSMCConfig) (sim : DSMCState)
    (idx1 idx2 : ℕ) (maxRel : ℝ) (d : CollisionDraws)
    (h1 : ¬((sim.velocities idx1 - sim.velocities idx2).norm / maxRel < d.u_accept))
    (h2 : ¬(p_inelastic cfg < d.u_type)) :
    performCollision cfg sim idx1 idx2 maxRel d =
      { sim with
        inelastic_collisions := sim.inelastic_collisions + 1
        rotational_energy :=
          Function.update (Function.update sim.rotational_energy idx1
            ((E_total_pre_of sim idx1 idx2 - E_total_pre_of sim idx1 idx2 * d.beta_frac) / 2)) idx2
            ((E_total_pre_of sim idx1 idx2 - E_total_pre_of sim idx1 idx2 * d.beta_frac) / 2)
        velocities :=
          pairVelocityUpdate sim idx1 idx2
            (Real.sqrt (4 * (E_total_pre_of sim idx1 idx2 * d.beta_frac) / m_H2) •
              random_unit_vector d.u_dir1 d.u_dir2) } := by
  unfold performCollision
  rw [if_neg h1, if_neg h2]

theorem E_trans_pre_nonneg (sim : DSMCState) (idx1 idx2 : ℕ) :
    0 ≤ E_trans_pre_of sim idx1 idx2 := by
  have h1 := Vec3.normSq_nonneg (sim.velocities idx1 - CM_of sim idx1 idx2)
  have h2 := Vec3.normSq_nonneg (sim.velocities idx2 - CM_of sim idx1 idx2)
  have hm := m_H2_pos
  unfold E_trans_pre_of
  nlinarith

theorem E_total_pre_nonneg (sim : DSMCState) (idx1 idx2 : ℕ)
    (hr1 : 0 ≤ sim.rotational_energy idx1) (hr2 : 0 ≤ sim.rotational_energy idx2) :
    0 ≤ E_total_pre_of sim idx1 idx2 :=
  add_nonneg (E_trans_pre_nonneg sim idx1 idx2) (add_nonneg hr1 hr2)

theorem performCollision_rot_nonneg (cfg : DSMCConfig) (sim : DSMCState)
    (idx1 idx2 : ℕ) (maxRel : ℝ) (d : CollisionDraws)
    (hb1 : d.beta_frac ≤ 1)
    (hrot : ∀ j, 0 ≤ sim.rotational_energy j) :
    ∀ j, 0 ≤ (performCollision cfg sim idx1 idx2 maxRel d).rotational_energy j := by
  intro j
  by_cases h1 : (sim.velocities idx1 - sim.velocities idx2).norm / maxRel < d.u_accept
  · rw [performCollision_of_rejected cfg sim idx1 idx2 maxRel d h1]
    exact hrot j
  · by_cases h2 : p_inelastic cfg < d.u_type
    · rw [performCollision_of_elastic cfg sim idx1 idx2 maxRel d h1 h2]
      exact hrot j
    · rw [performCollision_of_inelastic cfg sim idx1 idx2 maxRel d h1 h2]
      have hE := E_total_pre_nonneg sim idx1 idx2 (hrot idx1) (hrot idx2)
      have hval : 0 ≤ (E_total_pre_of sim idx1 idx2 -
          E_total_pre_of sim idx1 idx2 * d.beta_frac) / 2 := by nlinarith
      simp only [Function.update_apply]
      split_ifs
      · exact hval
      · exact hval
      · exact hrot j

theorem foldl_invariant {α β : Type} (P : α → Prop) (f : α → β → α)
    (h : ∀ a b, P a → P (f a b)) :
    ∀ (l : List β) (a : α), P a → P (l.foldl f a) := by
  intro l
  induction l with
  | nil => intro a ha; exact ha
  | cons b t ih => intro a ha; exact ih _ (h _ _ ha)

theorem foldl_snd_count {β : Type} (F : DSMCState × ℕ → β → DSMCState) :
    ∀ (l : List β) (s : DSMCState) (c : ℕ),
      (l.foldl (fun acc k => (F acc k, acc.2 + 1)) (s, c)).2 = c + l.length := by
  intro l
  induction l with
  | nil => intro s c; simp
  | cons b t ih =>
      intro s c
      simp only [List.foldl_cons, List.length_cons]
      rw [ih]
      omega

theorem npMod_mem (x L : ℝ) (hL : 0 < L) : 0 ≤ npMod x L ∧ npMod x L < L := by
  have hfr : npMod x L = L * Int.fract (x / L) := by
    rw [npMod, Int.fract]
    field_simp
  constructor
  · rw [hfr]
    exact mul_nonneg hL.le (Int.fract_nonneg _)
  · rw [hfr]
    calc L * Int.fract (x / L) < L * 1 :=
          mul_lt_mul_of_pos_left (Int.fract_lt_one _) hL
      _ = L := mul_one L

theorem cell_index_mem (L : ℝ) (n : ℤ) (xc : ℝ) (hL : 0 < L) (hn : 0 < n)
    (hx0 : 0 ≤ xc) (hxL : xc < L) :
    0 ≤ ⌊xc / (L / (n : ℝ))⌋ ∧ ⌊xc / (L / (n : ℝ))⌋ ≤ n - 1 := by
  have hnR : (0 : ℝ) < (n : ℝ) := by exact_mod_cast hn
  have hcs : 0 < L / (n : ℝ) := div_pos hL hnR
  constructor
  · exact Int.floor_nonneg.mpr (div_nonneg hx0 hcs.le)
  · have hlt : xc / (L / (n : ℝ)) < (n : ℝ) := by
      rw [div_lt_iff₀ hcs]
      have hcancel : (n : ℝ) * (L / (n : ℝ)) = L := by
        field_simp
      linarith [hcancel]
    have := Int.floor_lt.mpr (by exact_mod_cast hlt)
    omega

theorem dsmcInit_isSome (cfg : DSMCConfig) (posU velG : ℕ → Vec3)
    (h1 : cfg.Z_r ≠ 0) (h2 : cfg.n_cells ≠ 0) (h3 : 0 < cfg.T_tr_initial)
    (h4 : 0 < cfg.n_particles) (h5 : cfg.domain_size ≠ 0) :
    (dsmcInit? cfg posU velG).isSome = true := by
  have hv : v_init cfg ≠ 0 := by
    have harg : 0 < 3 * k_B * cfg.T_tr_initial / m_H2 :=
      div_pos (by nlinarith [k_B_pos, h3]) m_H2_pos
    exact (Real.sqrt_pos.mpr harg).ne'
  have hden : cfg.domain_size ^ 3 / (cfg.n_cells : ℝ) ≠ 0 :=
    div_ne_zero (pow_ne_zero 3 h5) (Int.cast_ne_zero.mpr h2)
  unfold dsmcInit?
  rw [if_neg h1, if_neg h2, if_neg hv, if_neg h4.ne', if_neg hden,
    if_neg (not_lt.mpr h4.le)]
  rfl

theorem Vec3.add_half_sub_sub_half (c h : Vec3) :
    (c + (0.5 : ℝ) • h) - (c - (0.5 : ℝ) • h) = h := by
  ext <;> simp <;> ring

theorem Vec3.half_smul_add_pair (c h : Vec3) :
    (0.5 : ℝ) • ((c + (0.5 : ℝ) • h) + (c - (0.5 : ℝ) • h)) = c := by
  ext <;> simp <;> ring

/-- C1: for every inelastic collision resolved by perform_collision (the
analytic Larsen-Borgnakke branch, taken when the acceptance draw does not
exceed |v_rel|/max_rel_velocity and the type draw does not exceed
p_inelastic), the pair's total energy is conserved: the post-collision
total energy recomputed exactly as on src/dsmc.py lines 176-178 equals the
pre-collision total of lines 150-152, hence |E_total_pre - E_total_post|
< 1e-10 and the np.isclose assertion of line 180 never fires.  The
hypotheses are the reachable-state facts the code guarantees: the two
particles are distinct, rotational energies are nonnegative, and the Beta
draw is nonnegative. -/
theorem inelastic_energy_conservation (cfg : DSMCConfig) (sim : DSMCState)
    (idx1 idx2 : ℕ) (maxRel : ℝ) (d : CollisionDraws)
    (h12 : idx1 ≠ idx2)
    (haccept : d.u_accept ≤ (sim.velocities idx1 - sim.velocities idx2).norm / maxRel)
    (htype : d.u_type ≤ p_inelastic cfg)
    (hrot1 : 0 ≤ sim.rotational_energy idx1)
    (hrot2 : 0 ≤ sim.rotational_energy idx2)
    (hbeta : 0 ≤ d.beta_frac) :
    E_total_post_of sim (performCollision cfg sim idx1 idx2 maxRel d) idx1 idx2
      = E_total_pre_of sim idx1 idx2
    ∧ |E_total_pre_of sim idx1 idx2 -
        E_total_post_of sim (performCollision cfg sim idx1 idx2 maxRel d) idx1 idx2| < 1e-10
    ∧ np_isclose (E_total_pre_of sim idx1 idx2)
        (E_total_post_of sim (performCollision cfg sim idx1 idx2 maxRel d) idx1 idx2)
        1e-10 1e-5 := by
  have h1 : ¬((sim.velocities idx1 - sim.velocities idx2).norm / maxRel < d.u_accept) :=
    not_lt.mpr haccept
  have h2 : ¬(p_inelastic cfg < d.u_type) := not_lt.mpr htype
  have hEtot : 0 ≤ E_total_pre_of sim idx1 idx2 :=
    E_total_pre_nonneg sim idx1 idx2 hrot1 hrot2
  have hm := m_H2_pos
  have hEtp : 0 ≤ 4 * (E_total_pre_of sim idx1 idx2 * d.beta_frac) / m_H2 :=
    div_nonneg (by nlinarith) hm.le
  have key : E_total_post_of sim (performCollision cfg sim idx1 idx2 maxRel d) idx1 idx2
      = E_total_pre_of sim idx1 idx2 := by
    rw [performCollision_of_inelastic cfg sim idx1 idx2 maxRel d h1 h2]
    unfold E_total_post_of
    dsimp only
    rw [pairVelocityUpdate_left sim idx1 idx2 _ h12, pairVelocityUpdate_right]
    rw [Vec3.normSq_add_sub, Vec3.normSq_sub_sub]
    simp only [Function.update_noteq h12, Function.update_same]
    simp only [Vec3.normSq_smul, random_unit_vector_normSq]
    rw [Real.sq_sqrt hEtp]
    field_simp
    ring
  refine ⟨key, ?_, ?_⟩
  · rw [key, sub_self, abs_zero]
    norm_num
  · unfold np_isclose
    rw [key, sub_self, abs_zero]
    positivity

/-- C1 witness: the theorem instantiated at a concrete accepted inelastic
collision between particles 0 and 1 of the all-at-rest state. -/
theorem inelastic_energy_conservation_instance :
    (0 : ℕ) ≠ 1
    ∧ drawsA.u_accept ≤ (simW.velocities 0 - simW.velocities 1).norm / 1
    ∧ drawsA.u_type ≤ p_inelastic mainConfig
    ∧ 0 ≤ simW.rotational_energy 0
    ∧ 0 ≤ simW.rotational_energy 1
    ∧ 0 ≤ drawsA.beta_frac
    ∧ (E_total_post_of simW (performCollision mainConfig simW 0 1 1 drawsA) 0 1
        = E_total_pre_of simW 0 1
      ∧ |E_total_pre_of simW 0 1 -
          E_total_post_of simW (performCollision mainConfig simW 0 1 1 drawsA) 0 1| < 1e-10
      ∧ np_isclose (E_total_pre_of simW 0 1)
          (E_total_post_of simW (performCollision mainConfig simW 0 1 1 drawsA) 0 1)
          1e-10 1e-5) :=
  ⟨by decide,
   by norm_num [drawsA, simW, vzero, Vec3.norm, Vec3.normSq],
   by norm_num [drawsA, p_inelastic, mainConfig],
   by norm_num [simW],
   by norm_num [simW],
   by norm_num [drawsA],
   inelastic_energy_conservation mainConfig simW 0 1 1 drawsA (by decide)
     (by norm_num [drawsA, simW, vzero, Vec3.norm, Vec3.normSq])
     (by norm_num [drawsA, p_inelastic, mainConfig])
     (by norm_num [simW]) (by norm_num [simW]) (by norm_num [drawsA])⟩

/-- C2: for every elastic collision resolved by perform_collision (accepted,
type draw above p_inelastic), the magnitude of the relative velocity is
preserved exactly, the centre-of-mass velocity 0.5*(v1+v2) is unchanged,
the new velocities are CM plus-or-minus 0.5 times the new relative velocity
(the old relative speed times the unit random direction), and the
rotational-energy array is untouched. -/
theorem elastic_collision_properties (cfg : DSMCConfig) (sim : DSMCState)
    (idx1 idx2 : ℕ) (maxRel : ℝ) (d : CollisionDraws)
    (h12 : idx1 ≠ idx2)
    (haccept : d.u_accept ≤ (sim.velocities idx1 - sim.velocities idx2).norm / maxRel)
    (htype : p_inelastic cfg < d.u_type) :
    ((performCollision cfg sim idx1 idx2 maxRel d).velocities idx1 -
        (performCollision cfg sim idx1 idx2 maxRel d).velocities idx2).norm
      = (sim.velocities idx1 - sim.velocities idx2).norm
    ∧ (0.5 : ℝ) • ((performCollision cfg sim idx1 idx2 maxRel d).velocities idx1 +
        (performCollision cfg sim idx1 idx2 maxRel d).velocities idx2)
      = CM_of sim idx1 idx2
    ∧ (performCollision cfg sim idx1 idx2 maxRel d).velocities idx1
      = CM_of sim idx1 idx2 + (0.5 : ℝ) •
          ((sim.velocities idx1 - sim.velocities idx2).norm •
            random_unit_vector d.u_dir1 d.u_dir2)
    ∧ (performCollision cfg sim idx1 idx2 maxRel d).velocities idx2
      = CM_of sim idx1 idx2 - (0.5 : ℝ) •
          ((sim.velocities idx1 - sim.velocities idx2).norm •
            random_unit_vector d.u_dir1 d.u_dir2)
    ∧ (performCollision cfg sim idx1 idx2 maxRel d).rotational_energy
      = sim.rotational_energy := by
  have h1 : ¬((sim.velocities idx1 - sim.velocities idx2).norm / maxRel < d.u_accept) :=
    not_lt.mpr haccept
  rw [performCollision_of_elastic cfg sim idx1 idx2 maxRel d h1 htype]
  dsimp only
  rw [pairVelocityUpdate_left sim idx1 idx2 _ h12, pairVelocityUpdate_right]
  refine ⟨?_, ?_, rfl, rfl, rfl⟩
  · rw [Vec3.add_half_sub_sub_half, Vec3.norm_smul, random_unit_vector_norm, mul_one,
      abs_of_nonneg (Vec3.norm_nonneg _)]
  · exact Vec3.half_smul_add_pair _ _

/-- C2 witness: the theorem instantiated at a concrete accepted elastic
collision between particles 0 and 1 of the all-at-rest state. -/
theorem elastic_collision_properties_instance :
    (0 : ℕ) ≠ 1
    ∧ drawsB.u_accept ≤ (simW.velocities 0 - simW.velocities 1).norm / 1
    ∧ p_inelastic mainConfig < drawsB.u_type
    ∧ (((performCollision mainConfig simW 0 1 1 drawsB).velocities 0 -
          (performCollision mainConfig simW 0 1 1 drawsB).velocities 1).norm
        = (simW.velocities 0 - simW.velocities 1).norm
      ∧ (0.5 : ℝ) • ((performCollision mainConfig simW 0 1 1 drawsB).velocities 0 +
          (performCollision mainConfig simW 0 1 1 drawsB).velocities 1)
        = CM_of simW 0 1
      ∧ (performCollision mainConfig simW 0 1 1 drawsB).velocities 0
        = CM_of simW 0 1 + (0.5 : ℝ) •
            ((simW.velocities 0 - simW.velocities 1).norm •
              random_unit_vector drawsB.u_dir1 drawsB.u_dir2)
      ∧ (performCollision mainConfig simW 0 1 1 drawsB).velocities 1
        = CM_of simW 0 1 - (0.5 : ℝ) •
            ((simW.velocities 0 - simW.velocities 1).norm •
              random_unit_vector drawsB.u_dir1 drawsB.u_dir2)
      ∧ (performCollision mainConfig simW 0 1 1 drawsB).rotational_energy
        = simW.rotational_energy) :=
  ⟨by decide,
   by norm_num [drawsB, simW, vzero, Vec3.norm, Vec3.normSq],
   by norm_num [drawsB, p_inelastic, mainConfig],
   elastic_collision_properties mainConfig simW 0 1 1 drawsB (by decide)
     (by norm_num [drawsB, simW, vzero, Vec3.norm, Vec3.normSq])
     (by norm_num [drawsB, p_inelastic, mainConfig])⟩

/-- C3 (code bug): perform_collision never consults the learned surrogate.
Its result is identical for any value of the use_mdn flag and any (or no)
mdn_model capability, so with use_mdn = true the inelastic outcome is still
produced by the analytic Larsen-Borgnakke branch and mdn_energy_exchange is
dead code, contrary to the claimed wiring. -/
theorem perform_collision_ignores_mdn (cfg : DSMCConfig) (b : Bool)
    (mo : Option ((ℝ × ℝ × ℝ) → ℝ × ℝ)) (sim : DSMCState) (idx1 idx2 : ℕ)
    (maxRel : ℝ) (d : CollisionDraws) :
    performCollision { cfg with use_mdn := b, mdn_model := mo } sim idx1 idx2 maxRel d
      = performCollision cfg sim idx1 idx2 maxRel d := rfl

/-- C4 (code bug): the time_step constructor argument is dead.  The stored
timestep is the derived value 0.2*(domain_size/n_cells)/v_init for every
value of the argument, and for the __main__ invocation (which passes the
CLI default time_step=1e-6) the stored timestep is not the supplied
1e-6 seconds. -/
theorem time_step_override_ignored :
    (∀ t : ℝ, time_step { mainConfig with time_step_arg := t } = time_step mainConfig)
    ∧ time_step mainConfig ≠ 1e-6 := by
  constructor
  · intro t
    rfl
  · intro h
    have hA : (0 : ℝ) < 3 * k_B * (380 : ℝ) / m_H2 := by norm_num [k_B, m_H2]
    have hs : 0 < Real.sqrt (3 * k_B * (380 : ℝ) / m_H2) := Real.sqrt_pos.mpr hA
    have hts : time_step mainConfig =
        0.2 * ((6.4e-4 : ℝ) / (((10 : ℤ)) : ℝ)) / Real.sqrt (3 * k_B * (380 : ℝ) / m_H2) := rfl
    rw [hts] at h
    have h10 : (((10 : ℤ)) : ℝ) = (10 : ℝ) := by norm_num
    rw [h10, div_eq_iff hs.ne'] at h
    have hsv : Real.sqrt (3 * k_B * (380 : ℝ) / m_H2) = 12.8 := by linarith
    have hA2 := Real.sq_sqrt hA.le
    rw [hsv] at hA2
    norm_num [k_B, m_H2] at hA2

/-- C5: after update_positions (advance by velocity times the stored
timestep, then wrap by np.mod(domain_size)), every coordinate of every
particle lies in the half-open interval [0, domain_size), provided
domain_size is positive. -/
theorem positions_in_domain_after_update (cfg : DSMCConfig) (sim : DSMCState)
    (hL : 0 < cfg.domain_size) :
    ∀ i, inDomain cfg.domain_size ((update_positions cfg sim).positions i) := by
  intro i
  unfold update_positions inDomain vecMod
  dsimp only
  exact ⟨npMod_mem _ _ hL, npMod_mem _ _ hL, npMod_mem _ _ hL⟩

/-- C5 witness: the theorem instantiated at the __main__ configuration and
the all-at-rest state. -/
theorem positions_in_domain_after_update_instance :
    0 < mainConfig.domain_size
    ∧ ∀ i, inDomain mainConfig.domain_size ((update_positions mainConfig simW).positions i) :=
  ⟨by norm_num [mainConfig],
   positions_in_domain_after_update mainConfig simW (by norm_num [mainConfig])⟩

/-- C6: rotational energy is never negative.  It is initialised to
0.5*k_B*T_rot_initial, which is nonnegative for a nonnegative initial
rotational temperature; perform_collision preserves pointwise
nonnegativity of the rotational-energy array whenever its Beta draw lies
in [0,1] (the inelastic branch writes E_total_pre*(1-f)/2 into both
slots); update_positions leaves the array untouched; and the whole
per-cell candidate loop therefore preserves nonnegativity as well. -/
theorem rotational_energy_nonneg (cfg : DSMCConfig) (sim : DSMCState)
    (idx1 idx2 : ℕ) (maxRel : ℝ) (d : CollisionDraws) (coeffVal : ℝ) (n : ℕ)
    (pairDraw : ℕ → ℕ × ℕ) (colDraw : ℕ → CollisionDraws) (i : ℕ)
    (hT : 0 ≤ cfg.T_rot_initial)
    (_hb0 : 0 ≤ d.beta_frac) (hb1 : d.beta_frac ≤ 1)
    (hrot : ∀ j, 0 ≤ sim.rotational_energy j)
    (hdraws : ∀ k, (colDraw k).beta_frac ≤ 1) :
    0 ≤ rot_energy_init cfg i
    ∧ (∀ j, 0 ≤ (performCollision cfg sim idx1 idx2 maxRel d).rotational_energy j)
    ∧ (update_positions cfg sim).rotational_energy = sim.rotational_energy
    ∧ (∀ j, 0 ≤
        (cell_collision_attempts cfg coeffVal sim n maxRel pairDraw colDraw).1.rotational_energy j) := by
  refine ⟨?_, performCollision_rot_nonneg cfg sim idx1 idx2 maxRel d hb1 hrot, rfl, ?_⟩
  · unfold rot_energy_init
    exact mul_nonneg (mul_nonneg (by norm_num) k_B_pos.le) hT
  · unfold cell_collision_attempts
    exact foldl_invariant (fun q : DSMCState × ℕ => ∀ j, 0 ≤ q.1.rotational_energy j) _
      (fun a k ha =>
        performCollision_rot_nonneg cfg a.1 (pairDraw k).1 (pairDraw k).2 maxRel
          (colDraw k) (hdraws k) ha)
      _ _ hrot

/-- C6 witness: the theorem instantiated at the __main__ configuration, the
all-at-rest state, and concrete draws. -/
theorem rotational_energy_nonneg_instance :
    0 ≤ mainConfig.T_rot_initial
    ∧ 0 ≤ drawsA.beta_frac
    ∧ drawsA.beta_frac ≤ 1
    ∧ (∀ j, 0 ≤ simW.rotational_energy j)
    ∧ (∀ k, ((fun _ : ℕ => drawsA) k).beta_frac ≤ 1)
    ∧ (0 ≤ rot_energy_init mainConfig 0
      ∧ (∀ j, 0 ≤ (performCollision mainConfig simW 0 1 1 drawsA).rotational_energy j)
      ∧ (update_positions mainConfig simW).rotational_energy = simW.rotational_energy
      ∧ (∀ j, 0 ≤
          (cell_collision_attempts mainConfig 1e-5 simW 5 1 (fun _ => (0, 1))
            (fun _ => drawsA)).1.rotational_energy j)) :=
  ⟨by norm_num [mainConfig],
   by norm_num [drawsA],
   by norm_num [drawsA],
   fun j => by norm_num [simW],
   fun k => by norm_num [drawsA],
   rotational_energy_nonneg mainConfig simW 0 1 1 drawsA 1e-5 5 (fun _ => (0, 1))
     (fun _ => drawsA) 0 (by norm_num [mainConfig]) (by norm_num [drawsA])
     (by norm_num [drawsA]) (fun j => by norm_num [simW]) (fun k => by norm_num [drawsA])⟩

/-- C7: for a particle whose coordinates all lie in [0, domain_size), the
integer cell coordinates computed by assign_to_cells (floor of
position/cell_size per axis with cell_size = domain_size/n_cells) lie in
[0, n_cells-1] on every axis, so indexing the n_cells^3 cell array is in
bounds. -/
theorem cell_indices_in_range (cfg : DSMCConfig) (p : Vec3)
    (hL : 0 < cfg.domain_size) (hn : 0 < cfg.n_cells)
    (hp : inDomain cfg.domain_size p) :
    (0 ≤ (cell_indices cfg p).1 ∧ (cell_indices cfg p).1 ≤ cfg.n_cells - 1)
    ∧ (0 ≤ (cell_indices cfg p).2.1 ∧ (cell_indices cfg p).2.1 ≤ cfg.n_cells - 1)
    ∧ (0 ≤ (cell_indices cfg p).2.2 ∧ (cell_indices cfg p).2.2 ≤ cfg.n_cells - 1) := by
  obtain ⟨⟨hx0, hxL⟩, ⟨hy0, hyL⟩, ⟨hz0, hzL⟩⟩ := hp
  unfold cell_indices cell_index cell_size
  dsimp only
  exact ⟨cell_index_mem _ _ _ hL hn hx0 hxL, cell_index_mem _ _ _ hL hn hy0 hyL,
    cell_index_mem _ _ _ hL hn hz0 hzL⟩

/-- C7 witness: the theorem instantiated at the __main__ configuration and
the origin. -/
theorem cell_indices_in_range_instance :
    0 < mainConfig.domain_size
    ∧ 0 < mainConfig.n_cells
    ∧ inDomain mainConfig.domain_size vzero
    ∧ ((0 ≤ (cell_indices mainConfig vzero).1
        ∧ (cell_indices mainConfig vzero).1 ≤ mainConfig.n_cells - 1)
      ∧ (0 ≤ (cell_indices mainConfig vzero).2.1
        ∧ (cell_indices mainConfig vzero).2.1 ≤ mainConfig.n_cells - 1)
      ∧ (0 ≤ (cell_indices mainConfig vzero).2.2
        ∧ (cell_indices mainConfig vzero).2.2 ≤ mainConfig.n_cells - 1)) :=
  ⟨by norm_num [mainConfig],
   by norm_num [mainConfig],
   by norm_num [inDomain, vzero, mainConfig],
   cell_indices_in_range mainConfig vzero (by norm_num [mainConfig])
     (by norm_num [mainConfig]) (by norm_num [inDomain, vzero, mainConfig])⟩

/-- C8: for a populated cell with n >= 2 particles, nonnegative coeff and
nonnegative maximum relative speed, the candidate-pair count computed by
dsmc_step equals floor(coeff*n*(n-1)*v_rel_max) (Python int truncation
coincides with floor on the nonnegative argument), and the per-cell loop
makes exactly that many perform_collision attempts. -/
theorem candidate_pair_count_floor (cfg : DSMCConfig) (sim : DSMCState)
    (coeffVal maxRel : ℝ) (n : ℕ) (pairDraw : ℕ → ℕ × ℕ)
    (colDraw : ℕ → CollisionDraws)
    (hn : 2 ≤ n) (hc : 0 ≤ coeffVal) (hv : 0 ≤ maxRel) :
    n_candidate_pairs coeffVal n maxRel = ⌊coeffVal * (n : ℝ) * ((n : ℝ) - 1) * maxRel⌋
    ∧ ((cell_collision_attempts cfg coeffVal sim n maxRel pairDraw colDraw).2 : ℤ)
        = n_candidate_pairs coeffVal n maxRel := by
  have hn1 : (1 : ℝ) ≤ (n : ℝ) := by
    have : 1 ≤ n := by omega
    exact_mod_cast this
  have harg : 0 ≤ coeffVal * (n : ℝ) * ((n : ℝ) - 1) * maxRel := by
    have h0 : (0 : ℝ) ≤ (n : ℝ) := Nat.cast_nonneg n
    have h1 : (0 : ℝ) ≤ (n : ℝ) - 1 := by linarith
    exact mul_nonneg (mul_nonneg (mul_nonneg hc h0) h1) hv
  have heq : n_candidate_pairs coeffVal n maxRel
      = ⌊coeffVal * (n : ℝ) * ((n : ℝ) - 1) * maxRel⌋ := by
    unfold n_candidate_pairs pythonInt
    rw [if_pos harg]
  refine ⟨heq, ?_⟩
  have hfloor : 0 ≤ n_candidate_pairs coeffVal n maxRel := by
    rw [heq]
    exact Int.floor_nonneg.mpr harg
  unfold cell_collision_attempts
  rw [foldl_snd_count, List.length_range, Nat.zero_add]
  exact Int.toNat_of_nonneg hfloor

/-- C8 witness: the theorem instantiated at the specification's test point
n = 5, v_rel_max = 100, coeff = 1e-5. -/
theorem candidate_pair_count_floor_instance :
    2 ≤ 5
    ∧ (0 : ℝ) ≤ 1e-5
    ∧ (0 : ℝ) ≤ 100
    ∧ (n_candidate_pairs 1e-5 5 100 = ⌊(1e-5 : ℝ) * (5 : ℝ) * ((5 : ℝ) - 1) * 100⌋
      ∧ ((cell_collision_attempts mainConfig 1e-5 simW 5 100 (fun _ => (0, 1))
            (fun _ => drawsA)).2 : ℤ)
          = n_candidate_pairs 1e-5 5 100) :=
  ⟨by norm_num, by norm_num, by norm_num,
   candidate_pair_count_floor mainConfig simW 1e-5 100 5 (fun _ => (0, 1))
     (fun _ => drawsA) (by norm_num) (by norm_num) (by norm_num)⟩

/-- C9 counterexample: a configuration that is invalid on every
construction-visible count the claim lists (n_steps = -5, Z_r = 1 so
p_inelastic = 0, negative rotational temperature, negative collision
cross-section, use_mdn = true with no surrogate model) is accepted by the
constructor: dsmcInit? succeeds, so no configuration error is raised and
the simulation is not prevented from starting. -/
theorem construction_accepts_invalid_config_cx :
    (dsmcInit? badCfg (fun _ => vzero) (fun _ => vzero)).isSome = true :=
  dsmcInit_isSome badCfg _ _ (by norm_num [badCfg, mainConfig])
    (by norm_num [badCfg, mainConfig]) (by norm_num [badCfg, mainConfig])
    (by norm_num [badCfg, mainConfig]) (by norm_num [badCfg, mainConfig])

/-- C9 amended: the constructor performs no configuration validation.
Construction fails only at the incidental arithmetic raise sites (Z_r = 0,
n_cells = 0, zero thermal speed, n_particles <= 0, domain_size = 0); any
configuration avoiding those - regardless of non-positive step counts,
non-positive temperatures or cross-sections, Z_r <= 1, or use_mdn = true
without a surrogate model - is accepted. -/
theorem construction_no_validation (cfg : DSMCConfig) (posU velG : ℕ → Vec3)
    (h1 : cfg.Z_r ≠ 0) (h2 : cfg.n_cells ≠ 0) (h3 : 0 < cfg.T_tr_initial)
    (h4 : 0 < cfg.n_particles) (h5 : cfg.domain_size ≠ 0) :
    (dsmcInit? cfg posU velG).isSome = true :=
  dsmcInit_isSome cfg posU velG h1 h2 h3 h4 h5

/-- C9 witness: the amended theorem instantiated at another invalid
configuration (zero steps, negative rotational temperature). -/
theorem construction_no_validation_instance :
    oddCfg.Z_r ≠ 0
    ∧ oddCfg.n_cells ≠ 0
    ∧ 0 < oddCfg.T_tr_initial
    ∧ 0 < oddCfg.n_particles
    ∧ oddCfg.domain_size ≠ 0
    ∧ (dsmcInit? oddCfg (fun _ => vzero) (fun _ => vzero)).isSome = true :=
  ⟨by norm_num [oddCfg, mainConfig],
   by norm_num [oddCfg, mainConfig],
   by norm_num [oddCfg, mainConfig],
   by norm_num [oddCfg, mainConfig],
   by norm_num [oddCfg, mainConfig],
   construction_no_validation oddCfg _ _ (by norm_num [oddCfg, mainConfig])
     (by norm_num [oddCfg, mainConfig]) (by norm_num [oddCfg, mainConfig])
     (by norm_num [oddCfg, mainConfig]) (by norm_num [oddCfg, mainConfig])⟩

/-- C10: for every call of perform_collision on a distinct pair, whichever
of the three outcomes (rejected, elastic, inelastic) occurs, the sum of the
two particles' velocities - and hence the pair's CM velocity and total
momentum m_H2*(v1+v2) - is unchanged: both collision branches assign
CM plus-or-minus half the new relative velocity, and rejection changes no
velocities. -/
theorem pair_momentum_conserved (cfg : DSMCConfig) (sim : DSMCState)
    (idx1 idx2 : ℕ) (maxRel : ℝ) (d : CollisionDraws) (h12 : idx1 ≠ idx2) :
    (performCollision cfg sim idx1 idx2 maxRel d).velocities idx1 +
      (performCollision cfg sim idx1 idx2 maxRel d).velocities idx2
    = sim.velocities idx1 + sim.velocities idx2 := by
  by_cases h1 : (sim.velocities idx1 - sim.velocities idx2).norm / maxRel < d.u_accept
  · rw [performCollision_of_rejected cfg sim idx1 idx2 maxRel d h1]
  · by_cases h2 : p_inelastic cfg < d.u_type
    · rw [performCollision_of_elastic cfg sim idx1 idx2 maxRel d h1 h2]
      dsimp only
      rw [pairVelocityUpdate_left sim idx1 idx2 _ h12, pairVelocityUpdate_right]
      ext <;> simp [CM_of] <;> ring
    · rw [performCollision_of_inelastic cfg sim idx1 idx2 maxRel d h1 h2]
      dsimp only
      rw [pairVelocityUpdate_left sim idx1 idx2 _ h12, pairVelocityUpdate_right]
      ext <;> simp [CM_of] <;> ring

/-- C10 witness: the theorem instantiated at a concrete distinct pair. -/
theorem pair_momentum_conserved_instance :
    (0 : ℕ) ≠ 1
    ∧ (performCollision mainConfig simW 0 1 1 drawsA).velocities 0 +
        (performCollision mainConfig simW 0 1 1 drawsA).velocities 1
      = simW.velocities 0 + simW.velocities 1 :=
  ⟨by decide, pair_momentum_conserved mainConfig simW 0 1 1 drawsA (by decide)⟩

end DSMC
